import Mathlib

/-!
Verification of the NEXUS campaign-orchestration system.

The repository ships the React frontend (under nexus-frontend/src) together
with a README describing the FastAPI backend.  Frontend logic is embedded
directly from its TypeScript source; backend components that are not part of
the visible sources (SoftLockStore, ScoringEngine, CampaignCoordinator,
CallTaskSupervisor) are modelled from the specification, as flagged on each
definition.
-/

namespace Nexus

/-- Campaign status union, from nexus-frontend/src/types/api.ts
(type CampaignStatus). -/
inductive CampaignStatus
  | created
  | provider_lookup
  | dialing
  | negotiating
  | ranking
  | confirmed
  | failed
  | cancelled
deriving DecidableEq

/-- The TERMINAL_STATUSES list of useCampaignStream.ts. -/
def TERMINAL_STATUSES : List CampaignStatus :=
  [.confirmed, .failed, .cancelled]

/-- Membership test in TERMINAL_STATUSES, as performed by
TERMINAL_STATUSES.includes(event.campaign_status) in useCampaignStream.ts. -/
def isTerminal (s : CampaignStatus) : Bool :=
  TERMINAL_STATUSES.contains s

/-- The canCancel guard of CampaignDetail: status is in the explicit list
of the five non-terminal statuses. -/
def canCancel (s : CampaignStatus) : Bool :=
  [CampaignStatus.created, .provider_lookup, .dialing, .negotiating,
    .ranking].contains s

/-- A live-status stream event as far as the stream consumer inspects it:
only campaign_status drives the consumer's control flow
(useCampaignStream.ts). -/
structure StreamEvent where
  campaign_status : CampaignStatus
deriving DecidableEq

/-- The mutable state of the stream consumer in useCampaignStream.ts:
the isLive flag and whether closeRef has been invoked. -/
structure StreamConsumer where
  isLive : Bool
  closed : Bool
deriving DecidableEq

/-- Consumer state right after the effect establishing the stream:
setIsLive(true), closeRef freshly assigned (stream open). -/
def initConsumer : StreamConsumer :=
  { isLive := true, closed := false }

/-- The onData handler of useCampaignStream.ts: on an event whose
campaign_status is in TERMINAL_STATUSES it calls setIsLive(false) and
closeRef.current() (closing the stream); otherwise the flags are untouched. -/
def onData (c : StreamConsumer) (ev : StreamEvent) : StreamConsumer :=
  if isTerminal ev.campaign_status then { isLive := false, closed := true }
  else c

/-- Run the consumer over a sequence of delivered events; a closed stream
delivers nothing further. -/
def consume : StreamConsumer → List StreamEvent → StreamConsumer
  | c, [] => c
  | c, ev :: rest => if c.closed then c else consume (onData c ev) rest

/-- The events the consumer actually processes, in order: delivery stops
once the stream has been closed. -/
def processedEvents : StreamConsumer → List StreamEvent → List StreamEvent
  | _, [] => []
  | c, ev :: rest =>
    if c.closed then [] else ev :: processedEvents (onData c ev) rest

/-- The portion of a stream up to and including its first terminal event
(the whole stream when no terminal event occurs). -/
def takeUntilTerminal : List StreamEvent → List StreamEvent
  | [] => []
  | ev :: rest =>
    if isTerminal ev.campaign_status then [ev]
    else ev :: takeUntilTerminal rest

/-- AuthState union of AuthContext. -/
inductive AuthState
  | loading
  | logged_in
  | logged_out
deriving DecidableEq

/-- Outcome of one api() call as observed by its caller: success with a
value, or a thrown error carrying an optional HTTP status (absent on
network failure). -/
inductive ApiResult (α : Type)
  | success (v : α)
  | failure (status : Option Nat)
deriving DecidableEq

/-- The refreshAuth callback of AuthContext: awaits
api("/api/appointments"); on success sets authState to logged_in; in the
catch block, both the err.status === 401 branch and the else branch set
authState to logged_out. -/
def refreshAuth {α : Type} (r : ApiResult α) : AuthState :=
  match r with
  | .success _ => .logged_in
  | .failure status => if status = some 401 then .logged_out else .logged_out

/-- Request body of POST /api/campaigns as built by Dashboard.handleSubmit. -/
structure CampaignRequestBody where
  prompt : String
  user_location : String
deriving DecidableEq

/-- JavaScript String.prototype.trim as used by Dashboard.handleSubmit:
strip whitespace from both ends of the string. -/
def jsTrim (s : String) : String :=
  String.mk
    (((s.data.dropWhile Char.isWhitespace).reverse.dropWhile
        Char.isWhitespace).reverse)

/-- Dashboard.handleSubmit: trims the prompt, defaults the trimmed location
to "Boston, MA" when it is falsy (empty), returns early (no request) when
the trimmed prompt is empty, otherwise posts the body. The result is the
request body sent, or none when no request is made. -/
def handleSubmit (prompt userLocation : String) : Option CampaignRequestBody :=
  let p := jsTrim prompt
  let loc := if jsTrim userLocation = "" then "Boston, MA" else jsTrim userLocation
  if p = "" then none
  else some { prompt := p, user_location := loc }

/-! ## ScoringEngine (spec §4.4) -/

/-- Clamp a rational to the unit interval; each scoring component is
"normalized to [0,1] before weighting". -/
def clamp01 (x : ℚ) : ℚ := max 0 (min 1 x)

/-- Modelled from the spec: an offer as consumed by the ScoringEngine
(the backend services/orchestrator code is not in the visible sources).
Offered time and distance are in abstract units (minutes, kilometres);
rating is on the fixed 0–5 scale. -/
structure Offer where
  offeredTime : ℚ
  rating : ℚ
  distance : ℚ
deriving DecidableEq

/-- Campaign scoring weights (earliest/rating/distance); the spec requires
them to sum to 1.0 with default 0.5/0.3/0.2. -/
structure Weights where
  w_earliest : ℚ
  w_rating : ℚ
  w_proximity : ℚ
deriving DecidableEq

/-- The default weight triple 0.5/0.3/0.2. -/
def defaultWeights : Weights :=
  { w_earliest := 1/2, w_rating := 3/10, w_proximity := 1/5 }

/-- The two-week lookahead horizon, in minutes. -/
def lookaheadHorizon : ℚ := 20160

/-- The maximum useful radius, in kilometres; beyond it proximity
contributes 0. -/
def maxRadius : ℚ := 50

/-- Modelled from the spec: earliness component — inverse of
(offered-time − now), normalized to [0,1], clipped so offers beyond the
lookahead horizon floor at 0; strictly sooner gives a higher value. -/
def earliness (offeredTime now : ℚ) : ℚ :=
  clamp01 (1 - (offeredTime - now) / lookaheadHorizon)

/-- Modelled from the spec: rating component — provider rating normalized
against the fixed /5 scale. -/
def ratingNorm (rating : ℚ) : ℚ :=
  clamp01 (rating / 5)

/-- Modelled from the spec: proximity component — inverse of distance,
clipped at the maximum useful radius (beyond it, proximity contributes 0). -/
def proximity (distance : ℚ) : ℚ :=
  clamp01 (1 - distance / maxRadius)

/-- Modelled from the spec: the pure scoring function,
score = 100 × (w_earliest·earliness + w_rating·rating +
w_proximity·proximity). The backend ScoringEngine source is not in the
visible repository files. -/
def score (o : Offer) (w : Weights) (now : ℚ) : ℚ :=
  100 * (w.w_earliest * earliness o.offeredTime now
    + w.w_rating * ratingNorm o.rating
    + w.w_proximity * proximity o.distance)

/-! ## SoftLockStore (spec §4.1) -/

/-- A live hold on one calendar-slot key: the holding call-task id and the
lease expiry instant. -/
structure Hold where
  holder : String
  expiry : ℚ
deriving DecidableEq

/-- Modelled from the spec: the SoftLockStore state, mapping each slot key
to its current hold record, if any (the Redis-backed store itself is not in
the visible sources). -/
def LockState : Type := String → Option Hold

/-- The empty store: no key is held. -/
def emptyLocks : LockState := fun _ => none

/-- Result alphabet of tryHold. -/
inductive HoldResult
  | held
  | conflict
deriving DecidableEq

/-- Modelled from the spec: tryHold(key, holder, ttl) — succeeds if no
unexpired hold exists for the key (none recorded, or the recorded lease
has expired by now), or the existing hold belongs to the same holder
(re-entrant); on success the key maps to the holder with a fresh lease
expiring at now + ttl; on conflict the store is unchanged. Expiry is
enforced by the store itself (lease semantics). -/
def tryHold (s : LockState) (key holder : String) (ttl now : ℚ) :
    HoldResult × LockState :=
  match s key with
  | none =>
    (.held, fun k => if k = key then some { holder := holder, expiry := now + ttl } else s k)
  | some h =>
    if h.expiry ≤ now then
      (.held, fun k => if k = key then some { holder := holder, expiry := now + ttl } else s k)
    else if h.holder = holder then
      (.held, fun k => if k = key then some { holder := holder, expiry := now + ttl } else s k)
    else
      (.conflict, s)

/-- Modelled from the spec: release(key, holder) — idempotent; removes the
key's hold when the caller is the holder. -/
def release (s : LockState) (key holder : String) : LockState :=
  match s key with
  | none => s
  | some h =>
    if h.holder = holder then (fun k => if k = key then none else s k) else s

/-- Unconditional removal of a key, used when a campaign tears down all the
locks its own tasks hold. -/
def releaseKey (s : LockState) (key : String) : LockState :=
  fun k => if k = key then none else s k

/-- Release every key of a list. -/
def releaseAll : LockState → List String → LockState
  | s, [] => s
  | s, k :: ks => releaseAll (releaseKey s k) ks

/-- Modelled from the spec: isHeld(key) — the current unexpired holder, or
none; an expired lease reads as free. -/
def isHeld (s : LockState) (key : String) (now : ℚ) : Option String :=
  match s key with
  | none => none
  | some h => if h.expiry ≤ now then none else some h.holder

/-! ## CallTask and CampaignCoordinator (spec §3, §4.2, §4.3) -/

/-- Call-task status alphabet of spec §4.3 (also the strings appearing in
the frontend's CallTask.status). -/
inductive TaskStatus
  | pending
  | dialing
  | negotiating
  | slot_offered
  | no_answer
  | rejected
  | failed
  | ended
deriving DecidableEq

/-- One negotiation attempt, with the fields the orchestration core reads:
identifiers, status, the computed score and offered time (nullable until
reported), and the held soft-lock keys (field names follow the frontend
CallTask type in types/api.ts). -/
structure CallTask where
  id : String
  provider_id : String
  status : TaskStatus
  score : Option ℚ
  offered_time : Option ℚ
  hold_keys : List String
deriving DecidableEq

/-- Error taxonomy of spec §7. -/
inductive NexusError
  | validationError
  | authError
  | notFound
  | invalidState
  | conflict
  | upstreamFailure
  | timeout
deriving DecidableEq

/-- Modelled from the spec: one campaign's orchestration state — status,
the nullable winning call-task reference, its call tasks, and the number of
Appointment records created for it (the backend CampaignCoordinator source
is not in the visible repository files). -/
structure CampaignState where
  status : CampaignStatus
  confirmed_call_task_id : Option String
  tasks : List CallTask
  appointments : Nat
deriving DecidableEq

/-- A freshly created campaign: CREATED, no winner, no tasks, no
appointments. -/
def initCampaign : CampaignState :=
  { status := .created, confirmed_call_task_id := none, tasks := [],
    appointments := 0 }

/-- Whether the referenced task holds a reportable offer (a non-null
score). -/
def hasReportableOffer (s : CampaignState) (taskId : String) : Bool :=
  s.tasks.any (fun t => t.id = taskId && t.score.isSome)

/-- Retiring on confirm: siblings of the winner are cancelled (terminal)
and their locks released; the winner's hold is converted to the booking, so
no raw hold key remains on it either. -/
def retireTask (winnerId : String) (t : CallTask) : CallTask :=
  if t.id = winnerId then { t with hold_keys := [] }
  else { t with status := .ended, hold_keys := [] }

/-- Modelled from the spec: confirm(campaignId, callTaskId) — allowed only
when the campaign status is RANKING or NEGOTIATING and the referenced task
holds a reportable offer; re-validates the slot against the calendar
collaborator (calendarOk), commits the booking (one Appointment record),
transitions the campaign to CONFIRMED with the winning reference set, and
cancels/retires all sibling tasks. Fails with Conflict when the calendar
collaborator rejects, and with InvalidState when the campaign is already
terminal or otherwise not in a confirmable state. -/
def confirm (s : CampaignState) (taskId : String) (calendarOk : Bool) :
    Except NexusError CampaignState :=
  if s.status = .ranking ∨ s.status = .negotiating then
    if hasReportableOffer s taskId then
      if calendarOk then
        .ok { status := .confirmed, confirmed_call_task_id := some taskId,
              tasks := s.tasks.map (retireTask taskId),
              appointments := s.appointments + 1 }
      else .error .conflict
    else .error .invalidState
  else .error .invalidState

/-- Stopping one task on campaign cancel: it becomes terminal and holds no
lock keys. -/
def stopTask (t : CallTask) : CallTask :=
  { t with status := .ended, hold_keys := [] }

/-- All soft-lock keys currently held by the campaign's tasks. -/
def allHoldKeys (s : CampaignState) : List String :=
  s.tasks.flatMap (fun t => t.hold_keys)

/-- Modelled from the spec: the campaign-record effect of
cancel(campaignId) — from any non-terminal state every live task is
signalled to stop and the campaign transitions to CANCELLED; cancelling an
already-terminal campaign is a no-op success. -/
def cancelEffect (s : CampaignState) : CampaignState :=
  if isTerminal s.status then s
  else { s with status := .cancelled, tasks := s.tasks.map stopTask }

/-- Modelled from the spec: cancel(campaignId) acting on the campaign
record together with the SoftLockStore — stops the tasks and releases every
lock key they held. -/
def cancelCampaign (s : CampaignState) (L : LockState) :
    CampaignState × LockState :=
  (cancelEffect s,
    if isTerminal s.status then L else releaseAll L (allHoldKeys s))

/-- Modelled from the spec: the events driving one coordinator's state
machine (spec §4.2 transitions plus the confirm/cancel operations and the
task-level offer report that feeds ranking). -/
inductive Event
  | beginLookup
  | providersFound (spawned : List CallTask)
  | firstActive
  | beginRanking
  | reportOffer (taskId : String) (sc offTime : ℚ)
  | confirmEv (taskId : String) (calendarOk : Bool)
  | cancelEv
  | failEv

/-- Modelled from the spec: total transition function of the coordinator.
Guards follow §4.2: CREATED→PROVIDER_LOOKUP immediately;
PROVIDER_LOOKUP→DIALING on a non-empty provider list, →FAILED on an empty
one; DIALING→NEGOTIATING on the first active conversation;
NEGOTIATING→RANKING once an offer exists; confirm and cancel as above;
FAILED reachable from any non-terminal state. An operation that is invalid
in the current state leaves the state unchanged (its error goes to the
caller); terminal states are immutable. -/
def applyEvent (s : CampaignState) : Event → CampaignState
  | .beginLookup =>
    if s.status = .created then { s with status := .provider_lookup } else s
  | .providersFound spawned =>
    if s.status = .provider_lookup then
      (if spawned.isEmpty then { s with status := .failed }
       else { s with status := .dialing, tasks := spawned })
    else s
  | .firstActive =>
    if s.status = .dialing then { s with status := .negotiating } else s
  | .beginRanking =>
    if s.status = .negotiating then
      (if s.tasks.any (fun t => t.score.isSome) then
        { s with status := .ranking }
       else s)
    else s
  | .reportOffer tid sc offTime =>
    if isTerminal s.status then s
    else
      { s with tasks := s.tasks.map (fun t =>
          if t.id = tid then
            { t with
              status := .slot_offered
              score := some sc
              offered_time := some offTime }
          else t) }
  | .confirmEv tid calendarOk =>
    match confirm s tid calendarOk with
    | .ok s2 => s2
    | .error _ => s
  | .cancelEv => cancelEffect s
  | .failEv =>
    if isTerminal s.status then s else { s with status := .failed }

/-- States a coordinator can be in: everything the event alphabet can
produce from a fresh campaign. -/
inductive Reachable : CampaignState → Prop
  | init : Reachable initCampaign
  | step {s : CampaignState} (e : Event) : Reachable s → Reachable (applyEvent s e)

/-! ## getResults ranking (spec §4.2) -/

/-- Sort key: the score of a task known to carry one. -/
def scoreKey (t : CallTask) : ℚ := t.score.getD 0

/-- Sort key: the offered time of a task known to carry one. -/
def timeKey (t : CallTask) : ℚ := t.offered_time.getD 0

/-- Modelled from the spec: the getResults order — descending by score,
ties broken by earliest offered time, then by lexicographic provider id. -/
def offerLE (a b : CallTask) : Prop :=
  scoreKey b < scoreKey a ∨
    (scoreKey a = scoreKey b ∧
      (timeKey a < timeKey b ∨
        (timeKey a = timeKey b ∧ a.provider_id ≤ b.provider_id)))

instance : DecidableRel offerLE := fun a b => by
  unfold offerLE
  infer_instance

instance : IsTotal CallTask offerLE := by
  constructor
  intro a b
  rcases lt_trichotomy (scoreKey a) (scoreKey b) with hs | hs | hs
  · exact Or.inr (Or.inl hs)
  · rcases lt_trichotomy (timeKey a) (timeKey b) with ht | ht | ht
    · exact Or.inl (Or.inr ⟨hs, Or.inl ht⟩)
    · rcases le_total a.provider_id b.provider_id with hp | hp
      · exact Or.inl (Or.inr ⟨hs, Or.inr ⟨ht, hp⟩⟩)
      · exact Or.inr (Or.inr ⟨hs.symm, Or.inr ⟨ht.symm, hp⟩⟩)
    · exact Or.inr (Or.inr ⟨hs.symm, Or.inl ht⟩)
  · exact Or.inl (Or.inl hs)

instance : IsTrans CallTask offerLE := by
  constructor
  intro a b c hab hbc
  rcases hab with hs | ⟨hs, hrest⟩
  · rcases hbc with hs2 | ⟨hs2, _⟩
    · exact Or.inl (hs2.trans hs)
    · exact Or.inl (hs2 ▸ hs)
  · rcases hbc with hs2 | ⟨hs2, hrest2⟩
    · exact Or.inl (hs ▸ hs2)
    · refine Or.inr ⟨hs.trans hs2, ?_⟩
      rcases hrest with ht | ⟨ht, hp⟩
      · rcases hrest2 with ht2 | ⟨ht2, _⟩
        · exact Or.inl (ht.trans ht2)
        · exact Or.inl (ht2 ▸ ht)
      · rcases hrest2 with ht2 | ⟨ht2, hp2⟩
        · exact Or.inl (ht ▸ ht2)
        · exact Or.inr ⟨ht.trans ht2, hp.trans hp2⟩

/-- Modelled from the spec: getResults(campaignId) — all tasks with a
non-null score, sorted descending by score with ties broken by earliest
offered time then lexicographic provider id (the backend handler source is
not in the visible repository files). -/
def getResults (tasks : List CallTask) : List CallTask :=
  List.insertionSort offerLE (tasks.filter (fun t => t.score.isSome))

/-! ## CallTaskSupervisor tool handling (spec §4.3, §5) -/

/-- Provider slot details as reported by reportSlotOffer. -/
structure OfferDetails where
  offered_date : String
  offered_time : String
  offered_duration_min : Nat
  offered_doctor : Option String
deriving DecidableEq

/-- One task as its supervisor sees it. -/
structure SupTask where
  status : TaskStatus
  offered : Option OfferDetails
  score : Option ℚ
  hold_keys : List String
deriving DecidableEq

/-- Modelled from the spec: the supervisor's reportSlotOffer handler. A
successful checkAvailability is what moves a task to NEGOTIATING (and
records the hold), so reportSlotOffer is in-state exactly for a NEGOTIATING
task: it records the offer, computes the score, and moves the task to
SLOT_OFFERED. Out-of-state invocations (§5: e.g. before any
checkAvailability succeeded) are rejected with InvalidState. -/
def reportSlotOffer (t : SupTask) (d : OfferDetails) (sc : ℚ) :
    Except NexusError SupTask :=
  if t.status = .negotiating then
    .ok { t with status := .slot_offered, offered := some d, score := some sc }
  else .error .invalidState

/-- The supervisor step for a reportSlotOffer invocation: the recorded task
state after the call, plus the error returned, if any. A rejected call
leaves the task exactly as it was. -/
def applyReport (t : SupTask) (d : OfferDetails) (sc : ℚ) :
    SupTask × Option NexusError :=
  match reportSlotOffer t d sc with
  | .ok t2 => (t2, none)
  | .error e => (t, some e)

/-! ## Concrete states used by witnesses -/

/-- A task holding one soft-lock key mid-negotiation. -/
def demoCancelTask : CallTask :=
  { id := "t1", provider_id := "p1", status := .negotiating, score := none, offered_time := none, hold_keys := ["hold:u1:d:t"] }

/-- A NEGOTIATING campaign whose single task holds one lock key. -/
def demoCancelCampaign : CampaignState :=
  { status := .negotiating, confirmed_call_task_id := none, tasks := [demoCancelTask], appointments := 0 }

/-- An already-CONFIRMED campaign. -/
def demoConfirmedCampaign : CampaignState :=
  { status := .confirmed, confirmed_call_task_id := some "t1", tasks := [], appointments := 1 }

/-- A freshly spawned task, before any tool call. -/
def demoSpawnTask : CallTask :=
  { id := "t1", provider_id := "p1", status := .pending, score := none, offered_time := none, hold_keys := [] }

/-- A RANKING campaign with one scored offer, reached from initCampaign by
the coordinator's own events. -/
def demoRanking : CampaignState :=
  applyEvent (applyEvent (applyEvent (applyEvent (applyEvent initCampaign .beginLookup) (.providersFound [demoSpawnTask])) .firstActive) (.reportOffer "t1" 50 100)) .beginRanking

/-- The campaign state expected after confirming task t1 on demoRanking. -/
def demoConfirmResult : CampaignState :=
  { status := .confirmed, confirmed_call_task_id := some "t1", tasks := [{ id := "t1", provider_id := "p1", status := .slot_offered, score := some 50, offered_time := some 100, hold_keys := [] }], appointments := 1 }

/-- A scored call task for the ranking witness. -/
def demoOfferA : CallTask :=
  { id := "a", provider_id := "pa", status := .slot_offered, score := some 80, offered_time := some 100, hold_keys := [] }

/-- A lower-scored call task for the ranking witness. -/
def demoOfferB : CallTask :=
  { id := "b", provider_id := "pb", status := .slot_offered, score := some 60, offered_time := some 90, hold_keys := [] }

/-- A task that never reported an offer (null score). -/
def demoOfferC : CallTask :=
  { id := "c", provider_id := "pc", status := .no_answer, score := none, offered_time := none, hold_keys := [] }

/-- A supervised task before any successful checkAvailability. -/
def demoPendingSup : SupTask :=
  { status := .pending, offered := none, score := none, hold_keys := [] }

/-- The slot details used by the supervisor witness. -/
def demoDetails : OfferDetails :=
  { offered_date := "2025-02-11", offered_time := "15:00", offered_duration_min := 30, offered_doctor := none }

/-! ## Helper lemmas -/

/-- A consumer whose stream is already closed processes nothing further. -/
lemma consume_closed (c : StreamConsumer) (hc : c.closed = true) :
    ∀ evs : List StreamEvent, consume c evs = c := by
  intro evs
  cases evs with
  | nil => rfl
  | cons ev rest => simp [consume, hc]

/-- What the consumer processes is exactly the stream up to and including
its first terminal event. -/
lemma processed_eq_takeUntil :
    ∀ evs : List StreamEvent,
      processedEvents initConsumer evs = takeUntilTerminal evs := by
  intro evs
  induction evs with
  | nil => rfl
  | cons ev rest ih =>
    by_cases h : isTerminal ev.campaign_status = true
    · simp only [processedEvents, takeUntilTerminal, h, if_pos, initConsumer]
      simp only [onData, h, if_pos]
      have : ∀ l : List StreamEvent,
          processedEvents { isLive := false, closed := true } l = [] := by
        intro l
        cases l with
        | nil => rfl
        | cons e r => simp [processedEvents]
      simp [this]
    · simp only [processedEvents, takeUntilTerminal, h, initConsumer]
      simp only [onData, h, if_neg, if_false]
      simpa [initConsumer] using ih

/-- All processing stops at a terminal event: the events after it are
irrelevant to the processed portion. -/
lemma takeUntil_append_terminal (ev : StreamEvent)
    (hev : isTerminal ev.campaign_status = true) :
    ∀ pre post : List StreamEvent,
      takeUntilTerminal (pre ++ ev :: post) = takeUntilTerminal (pre ++ [ev]) := by
  intro pre
  induction pre with
  | nil => intro post; simp [takeUntilTerminal, hev]
  | cons p rest ih =>
    intro post
    by_cases hp : isTerminal p.campaign_status = true
    · simp [takeUntilTerminal, hp]
    · simp [takeUntilTerminal, hp, ih post]

/-- If the stream holds a terminal event, the processed portion ends in a
terminal event. -/
lemma takeUntil_getLast_terminal :
    ∀ evs : List StreamEvent,
      (∃ e ∈ evs, isTerminal e.campaign_status = true) →
      ∃ ev, (takeUntilTerminal evs).getLast? = some ev ∧
        isTerminal ev.campaign_status = true := by
  intro evs
  induction evs with
  | nil => rintro ⟨e, he, _⟩; cases he
  | cons hd rest ih =>
    rintro ⟨e, he, hterm⟩
    by_cases hhd : isTerminal hd.campaign_status = true
    · exact ⟨hd, by simp [takeUntilTerminal, hhd], hhd⟩
    · have hmem : ∃ e ∈ rest, isTerminal e.campaign_status = true := by
        rcases List.mem_cons.mp he with rfl | hr
        · exact absurd hterm hhd
        · exact ⟨e, hr, hterm⟩
      obtain ⟨ev, hlast, hevt⟩ := ih hmem
      refine ⟨ev, ?_, hevt⟩
      have hstep : takeUntilTerminal (hd :: rest) = hd :: takeUntilTerminal rest := by
        simp [takeUntilTerminal, hhd]
      cases htu : takeUntilTerminal rest with
      | nil => rw [htu] at hlast; simp at hlast
      | cons x xs =>
        rw [htu] at hlast
        rw [hstep, htu, List.getLast?_cons_cons]
        exact hlast

/-- The consumer state after a whole stream: closed (and no longer live)
exactly when some event was terminal. -/
lemma consume_eq :
    ∀ evs : List StreamEvent,
      consume initConsumer evs =
        (if evs.any (fun e => isTerminal e.campaign_status) then
          { isLive := false, closed := true } else initConsumer) := by
  intro evs
  induction evs with
  | nil => rfl
  | cons ev rest ih =>
    by_cases h : isTerminal ev.campaign_status = true
    · simp only [consume, initConsumer, onData, h, if_pos, List.any_cons,
        Bool.true_or]
      simp [consume_closed { isLive := false, closed := true } rfl rest, h]
    · simp only [consume, initConsumer, onData, h, List.any_cons]
      simp only [h, Bool.false_or, if_neg, if_false]
      simpa [initConsumer] using ih

/-- The processed portion contains a terminal event exactly when the
stream does. -/
lemma takeUntil_terminal_mem :
    ∀ evs : List StreamEvent,
      (∃ e ∈ takeUntilTerminal evs, isTerminal e.campaign_status = true) ↔
      (∃ e ∈ evs, isTerminal e.campaign_status = true) := by
  intro evs
  induction evs with
  | nil => simp [takeUntilTerminal]
  | cons hd rest ih =>
    by_cases hhd : isTerminal hd.campaign_status = true
    · simp [takeUntilTerminal, hhd]
    · simp only [takeUntilTerminal, hhd, if_neg, if_false]
      constructor
      · rintro ⟨e, he, hterm⟩
        rcases List.mem_cons.mp he with rfl | hr
        · exact absurd hterm hhd
        · obtain ⟨f, hf, hft⟩ := ih.mp ⟨e, hr, hterm⟩
          exact ⟨f, List.mem_cons_of_mem _ hf, hft⟩
      · rintro ⟨e, he, hterm⟩
        rcases List.mem_cons.mp he with rfl | hr
        · exact absurd hterm hhd
        · obtain ⟨f, hf, hft⟩ := ih.mpr ⟨e, hr, hterm⟩
          exact ⟨f, List.mem_cons_of_mem _ hf, hft⟩

/-! ## Claim theorems: frontend behaviour -/

/-- C5: once a terminal-status event is delivered, no further event of the
stream is processed; the final processed event of every completed stream
carries the terminal status; and the consumer clears its live flag (closing
the stream) exactly when a processed event carries a terminal status. -/
theorem stream_terminal_claim (evs : List StreamEvent) :
    processedEvents initConsumer evs = takeUntilTerminal evs
    ∧ (∀ pre ev post, evs = pre ++ ev :: post →
        isTerminal ev.campaign_status = true →
        processedEvents initConsumer evs =
          processedEvents initConsumer (pre ++ [ev]))
    ∧ ((∃ e ∈ evs, isTerminal e.campaign_status = true) →
        ∃ ev, (processedEvents initConsumer evs).getLast? = some ev ∧
          isTerminal ev.campaign_status = true)
    ∧ ((consume initConsumer evs).isLive = false ↔
        ∃ e ∈ processedEvents initConsumer evs,
          isTerminal e.campaign_status = true) := by
  refine ⟨processed_eq_takeUntil evs, ?_, ?_, ?_⟩
  · intro pre ev post hsplit hterm
    rw [processed_eq_takeUntil, processed_eq_takeUntil, hsplit,
      takeUntil_append_terminal ev hterm pre post]
  · intro hmem
    rw [processed_eq_takeUntil]
    exact takeUntil_getLast_terminal evs hmem
  · rw [processed_eq_takeUntil, consume_eq, takeUntil_terminal_mem]
    by_cases h : evs.any (fun e => isTerminal e.campaign_status) = true
    · simp only [h, if_pos]
      simp only [List.any_eq_true] at h
      simpa using h
    · simp only [h, if_neg, if_false, initConsumer]
      simp only [List.any_eq_true] at h
      push_neg at h
      constructor
      · intro hfalse; cases hfalse
      · rintro ⟨e, he, hterm⟩
        exact absurd hterm (by simpa using h e he)

/-- C5 witness: a stream that negotiates, confirms, then (spuriously)
sends one more event — only the first two events are processed, the last
processed event is the terminal one, and the consumer is closed. -/
theorem stream_terminal_claim_witness :
    processedEvents initConsumer
        [⟨.negotiating⟩, ⟨.confirmed⟩, ⟨.ranking⟩] =
      [⟨.negotiating⟩, ⟨.confirmed⟩]
    ∧ (consume initConsumer
        [⟨.negotiating⟩, ⟨.confirmed⟩, ⟨.ranking⟩]).isLive = false := by
  have h := stream_terminal_claim [⟨.negotiating⟩, ⟨.confirmed⟩, ⟨.ranking⟩]
  constructor
  · have h2 := h.2.1 [⟨.negotiating⟩] ⟨.confirmed⟩ [⟨.ranking⟩] (by decide)
      (by decide)
    rw [h2]
    decide
  · exact h.2.2.2.mpr ⟨⟨.confirmed⟩, by rw [h.1]; decide, by decide⟩

/-- C9: the session probe sets authState to logged_in exactly when the
GET /api/appointments call succeeds; every failure — a 401, any other
upstream status, or a network error with no status at all — sets
authState to logged_out. -/
theorem refreshAuth_claim {α : Type} (r : ApiResult α) :
    (refreshAuth r = .logged_in ↔ ∃ v, r = .success v)
    ∧ (∀ status : Option Nat,
        refreshAuth (ApiResult.failure status : ApiResult α) = .logged_out) := by
  have hfail : ∀ status : Option Nat,
      refreshAuth (ApiResult.failure status : ApiResult α) = .logged_out := by
    intro status
    by_cases h : status = some 401 <;> simp [refreshAuth, h]
  refine ⟨⟨?_, ?_⟩, hfail⟩
  · intro h
    cases r with
    | success v => exact ⟨v, rfl⟩
    | failure status => rw [hfail status] at h; cases h
  · rintro ⟨v, rfl⟩
    rfl

/-- C9 witness: a successful probe is logged_in; a 401, a 503 and a
status-less network error are all logged_out. -/
theorem refreshAuth_claim_witness :
    refreshAuth (ApiResult.success ()) = .logged_in
    ∧ refreshAuth (ApiResult.failure (some 401) : ApiResult Unit) = .logged_out
    ∧ refreshAuth (ApiResult.failure (some 503) : ApiResult Unit) = .logged_out
    ∧ refreshAuth (ApiResult.failure none : ApiResult Unit) = .logged_out := by
  refine ⟨(refreshAuth_claim (ApiResult.success ())).1.mpr ⟨(), rfl⟩,
    (refreshAuth_claim (ApiResult.failure (some 401) : ApiResult Unit)).2 (some 401),
    (refreshAuth_claim (ApiResult.failure (some 503) : ApiResult Unit)).2 (some 503),
    (refreshAuth_claim (ApiResult.failure none : ApiResult Unit)).2 none⟩

/-- C10: with a non-empty trimmed prompt and an empty-or-whitespace
location, the POST body carries user_location "Boston, MA"; an empty
trimmed prompt sends no request at all. -/
theorem handleSubmit_claim (prompt userLocation : String)
    (hp : jsTrim prompt ≠ "") (hl : jsTrim userLocation = "") :
    handleSubmit prompt userLocation =
      some { prompt := jsTrim prompt, user_location := "Boston, MA" }
    ∧ (∀ q : String, jsTrim q = "" → ∀ loc : String, handleSubmit q loc = none) := by
  constructor
  · simp [handleSubmit, hl, hp]
  · intro q hq loc
    simp [handleSubmit, hq]

/-- C10 witness: a padded prompt with a whitespace-only location defaults
to Boston, MA; a whitespace-only prompt sends nothing. -/
theorem handleSubmit_claim_witness :
    handleSubmit " dentist tomorrow " "  " =
      some { prompt := "dentist tomorrow", user_location := "Boston, MA" }
    ∧ handleSubmit "   " "Cambridge" = none := by
  have h := handleSubmit_claim " dentist tomorrow " "  " (by decide) (by decide)
  constructor
  · rw [h.1]
    decide
  · exact h.2 "   " (by decide) "Cambridge"

/-! ## Claim theorems: scoring -/

/-- Any clamped component lies in the unit interval. -/
lemma clamp01_mem (x : ℚ) : 0 ≤ clamp01 x ∧ clamp01 x ≤ 1 := by
  unfold clamp01
  constructor
  · exact le_max_left 0 _
  · exact max_le (by norm_num) (min_le_left 1 x)

/-- clamp01 is monotone. -/
lemma clamp01_mono {x y : ℚ} (h : x ≤ y) : clamp01 x ≤ clamp01 y := by
  unfold clamp01
  exact max_le_max le_rfl (min_le_min le_rfl h)

/-- C7: the score is the weighted combination of the three components,
each component is normalized into [0,1], and for nonnegative weights
summing to 1 the score lies in [0,100]; the default weight triple is
0.5/0.3/0.2 and sums to 1. -/
theorem score_range_claim (o : Offer) (w : Weights) (now : ℚ)
    (h1 : 0 ≤ w.w_earliest) (h2 : 0 ≤ w.w_rating) (h3 : 0 ≤ w.w_proximity)
    (hsum : w.w_earliest + w.w_rating + w.w_proximity = 1) :
    score o w now =
      100 * (w.w_earliest * earliness o.offeredTime now
        + w.w_rating * ratingNorm o.rating
        + w.w_proximity * proximity o.distance)
    ∧ (0 ≤ earliness o.offeredTime now ∧ earliness o.offeredTime now ≤ 1)
    ∧ (0 ≤ ratingNorm o.rating ∧ ratingNorm o.rating ≤ 1)
    ∧ (0 ≤ proximity o.distance ∧ proximity o.distance ≤ 1)
    ∧ (0 ≤ score o w now ∧ score o w now ≤ 100)
    ∧ defaultWeights.w_earliest + defaultWeights.w_rating
        + defaultWeights.w_proximity = 1 := by
  obtain ⟨he0, he1⟩ := clamp01_mem (1 - (o.offeredTime - now) / lookaheadHorizon)
  obtain ⟨hr0, hr1⟩ := clamp01_mem (o.rating / 5)
  obtain ⟨hp0, hp1⟩ := clamp01_mem (1 - o.distance / maxRadius)
  refine ⟨rfl, ⟨he0, he1⟩, ⟨hr0, hr1⟩, ⟨hp0, hp1⟩, ⟨?_, ?_⟩, by norm_num [defaultWeights]⟩
  · unfold score
    have := mul_nonneg h1 he0
    have := mul_nonneg h2 hr0
    have := mul_nonneg h3 hp0
    unfold earliness ratingNorm proximity
    nlinarith
  · unfold score
    have hA : w.w_earliest * earliness o.offeredTime now ≤ w.w_earliest :=
      (mul_le_of_le_one_right h1 he1)
    have hB : w.w_rating * ratingNorm o.rating ≤ w.w_rating :=
      (mul_le_of_le_one_right h2 hr1)
    have hC : w.w_proximity * proximity o.distance ≤ w.w_proximity :=
      (mul_le_of_le_one_right h3 hp1)
    nlinarith

/-- C7 witness: a concrete offer scored with the default weights lies in
[0,100], and the default weights sum to 1. -/
theorem score_range_claim_witness :
    (0 ≤ score { offeredTime := 600, rating := 4, distance := 3 }
        defaultWeights 0
      ∧ score { offeredTime := 600, rating := 4, distance := 3 }
        defaultWeights 0 ≤ 100)
    ∧ defaultWeights.w_earliest + defaultWeights.w_rating
        + defaultWeights.w_proximity = 1 := by
  have h := score_range_claim { offeredTime := 600, rating := 4, distance := 3 }
    defaultWeights 0 (by norm_num [defaultWeights]) (by norm_num [defaultWeights])
    (by norm_num [defaultWeights]) (by norm_num [defaultWeights])
  exact ⟨h.2.2.2.2.1, h.2.2.2.2.2⟩

/-- C6: scoring is monotone in each component — with rating and distance
fixed, an earlier offered time never scores lower; with offered time and
distance fixed, a higher rating never scores lower. -/
theorem score_monotone_claim (o1 o2 : Offer) (w : Weights) (now : ℚ)
    (hwe : 0 ≤ w.w_earliest) (hwr : 0 ≤ w.w_rating) :
    (o1.rating = o2.rating → o1.distance = o2.distance →
      o1.offeredTime ≤ o2.offeredTime → score o2 w now ≤ score o1 w now)
    ∧ (o1.offeredTime = o2.offeredTime → o1.distance = o2.distance →
      o2.rating ≤ o1.rating → score o2 w now ≤ score o1 w now) := by
  constructor
  · intro hr hd ht
    have hE : earliness o2.offeredTime now ≤ earliness o1.offeredTime now := by
      unfold earliness
      apply clamp01_mono
      unfold lookaheadHorizon
      linarith
    have hmul := mul_le_mul_of_nonneg_left hE hwe
    unfold score
    rw [hr, hd]
    linarith
  · intro ht hd hr
    have hR : ratingNorm o2.rating ≤ ratingNorm o1.rating := by
      unfold ratingNorm
      apply clamp01_mono
      linarith
    have hmul := mul_le_mul_of_nonneg_left hR hwr
    unfold score
    rw [ht, hd]
    linarith

/-- C6 witness: with the default weights, an offer 60 minutes out scores at
least as high as an identical offer 600 minutes out, and a rating-5
provider at least as high as an identical rating-3 one. -/
theorem score_monotone_claim_witness :
    score { offeredTime := 600, rating := 4, distance := 3 } defaultWeights 0 ≤
      score { offeredTime := 60, rating := 4, distance := 3 } defaultWeights 0
    ∧ score { offeredTime := 60, rating := 3, distance := 3 } defaultWeights 0 ≤
      score { offeredTime := 60, rating := 5, distance := 3 } defaultWeights 0 := by
  constructor
  · exact (score_monotone_claim { offeredTime := 60, rating := 4, distance := 3 }
      { offeredTime := 600, rating := 4, distance := 3 } defaultWeights 0
      (by norm_num [defaultWeights]) (by norm_num [defaultWeights])).1
      rfl rfl (by norm_num)
  · exact (score_monotone_claim { offeredTime := 60, rating := 5, distance := 3 }
      { offeredTime := 60, rating := 3, distance := 3 } defaultWeights 0
      (by norm_num [defaultWeights]) (by norm_num [defaultWeights])).2
      rfl rfl (by norm_num)

/-! ## Claim theorems: soft locks and cancel -/

/-- After a successful tryHold, the key carries the grantee's fresh lease. -/
lemma tryHold_held_state (s : LockState) (key holder : String) (ttl now : ℚ)
    (h : (tryHold s key holder ttl now).1 = .held) :
    (tryHold s key holder ttl now).2 key =
      some { holder := holder, expiry := now + ttl } := by
  unfold tryHold at *
  cases hk : s key with
  | none => simp [hk] at h ⊢
  | some hold =>
    simp only [hk] at h ⊢
    by_cases h1 : hold.expiry ≤ now
    · simp [h1]
    · by_cases h2 : hold.holder = holder
      · simp [h1, h2]
      · simp [h1, h2] at h

/-- A request by a stranger against an unexpired hold is answered
conflict. -/
lemma tryHold_conflict_of_unexpired (s2 : LockState) (key hn hh : String)
    (e ttl now : ℚ) (hk : s2 key = some { holder := hh, expiry := e })
    (hexp : ¬ e ≤ now) (hne : hh ≠ hn) :
    (tryHold s2 key hn ttl now).1 = .conflict := by
  unfold tryHold
  rw [hk]
  simp [hexp, hne]

/-- C2: lease exclusivity. A hold is granted only when the key has no
unexpired holder or the unexpired holder is the requester itself
(re-entrancy); consequently, after a grant to one holder, any request by a
different holder within the granted lease window is answered conflict —
held is never returned to two different holders for overlapping unexpired
intervals. -/
theorem tryHold_exclusive_claim (s : LockState) (key h1 h2 : String)
    (ttl1 ttl2 now1 now2 : ℚ)
    (hgrant : (tryHold s key h1 ttl1 now1).1 = .held)
    (hne : h2 ≠ h1) (hoverlap : now2 < now1 + ttl1) :
    (tryHold (tryHold s key h1 ttl1 now1).2 key h2 ttl2 now2).1 = .conflict
    ∧ (∀ (s2 : LockState) (k hld : String) (ttl now : ℚ),
        (tryHold s2 k hld ttl now).1 = .held →
        isHeld s2 k now = none ∨ isHeld s2 k now = some hld) := by
  constructor
  · exact tryHold_conflict_of_unexpired (tryHold s key h1 ttl1 now1).2 key h2
      h1 (now1 + ttl1) ttl2 now2
      (tryHold_held_state s key h1 ttl1 now1 hgrant)
      (not_le.mpr hoverlap) (fun h => hne h.symm)
  · intro s2 k hld ttl now hheld
    unfold tryHold at hheld
    unfold isHeld
    cases hk : s2 k with
    | none => exact Or.inl (by simp)
    | some hold =>
      simp only [hk] at hheld ⊢
      by_cases hexp : hold.expiry ≤ now
      · exact Or.inl (by simp [hexp])
      · by_cases hsame : hold.holder = hld
        · exact Or.inr (by simp [hexp, hsame])
        · simp [hexp, hsame] at hheld

/-- C2 witness: task t1 is granted the hold on a fresh key; task t2
requesting the same key inside t1's lease window receives conflict. -/
theorem tryHold_exclusive_claim_witness :
    (tryHold (tryHold emptyLocks "hold:u1:2025-02-11:15:00" "t1" 10 0).2
      "hold:u1:2025-02-11:15:00" "t2" 10 5).1 = .conflict := by
  exact (tryHold_exclusive_claim emptyLocks "hold:u1:2025-02-11:15:00" "t1" "t2"
    10 10 0 5 (by decide) (by decide) (by norm_num)).1

/-- Releasing a list of keys clears exactly those keys. -/
lemma releaseAll_apply :
    ∀ (ks : List String) (L : LockState) (key : String),
      releaseAll L ks key = if key ∈ ks then none else L key := by
  intro ks
  induction ks with
  | nil => intro L key; simp [releaseAll]
  | cons k rest ih =>
    intro L key
    rw [releaseAll, ih]
    by_cases hmem : key ∈ rest
    · simp [hmem]
    · by_cases hk : key = k
      · simp [hmem, hk, releaseKey]
      · simp [hmem, hk, releaseKey]

/-- The frontend's canCancel list is exactly the complement of the
terminal statuses. -/
lemma canCancel_eq_not_terminal (s : CampaignStatus) :
    canCancel s = !isTerminal s := by
  cases s <;> rfl

/-- C4: cancel succeeds from every state. From any of the five
non-terminal statuses (exactly those the frontend's canCancel accepts) the
campaign transitions to CANCELLED and every soft-lock key its tasks held
reads as free afterwards; on an already-terminal campaign it is a no-op
that leaves campaign and lock store unchanged. -/
theorem cancel_claim (s : CampaignState) (L : LockState) (now : ℚ) :
    (canCancel s.status = true →
      (cancelCampaign s L).1.status = .cancelled
      ∧ (∀ key ∈ allHoldKeys s, isHeld (cancelCampaign s L).2 key now = none))
    ∧ (canCancel s.status = false → cancelCampaign s L = (s, L)) := by
  have hterm := canCancel_eq_not_terminal s.status
  constructor
  · intro hcc
    have hnt : isTerminal s.status = false := by
      rw [hcc] at hterm
      cases h : isTerminal s.status
      · rfl
      · rw [h] at hterm; cases hterm
    constructor
    · simp [cancelCampaign, cancelEffect, hnt]
    · intro key hkey
      have h2 : (cancelCampaign s L).2 = releaseAll L (allHoldKeys s) := by
        simp [cancelCampaign, hnt]
      have h3 := releaseAll_apply (allHoldKeys s) L key
      rw [if_pos hkey] at h3
      rw [h2]
      unfold isHeld
      rw [h3]
  · intro hcc
    have hnt : isTerminal s.status = true := by
      rw [hcc] at hterm
      cases h : isTerminal s.status
      · rw [h] at hterm; cases hterm
      · rfl
    simp [cancelCampaign, cancelEffect, hnt]

/-- C4 witness: cancelling a NEGOTIATING campaign whose task holds one key
yields CANCELLED with that key free, and cancelling a CONFIRMED campaign
changes nothing. -/
theorem cancel_claim_witness :
    (cancelCampaign demoCancelCampaign emptyLocks).1.status = .cancelled
    ∧ isHeld (cancelCampaign demoCancelCampaign emptyLocks).2
        "hold:u1:d:t" 0 = none
    ∧ cancelCampaign demoConfirmedCampaign emptyLocks =
        (demoConfirmedCampaign, emptyLocks) := by
  refine ⟨?_, ?_, ?_⟩
  · exact ((cancel_claim demoCancelCampaign emptyLocks 0).1 (by decide)).1
  · exact ((cancel_claim demoCancelCampaign emptyLocks 0).1 (by decide)).2
      "hold:u1:d:t" (by simp [allHoldKeys, demoCancelCampaign, demoCancelTask])
  · exact (cancel_claim demoConfirmedCampaign emptyLocks 0).2 (by decide)

/-! ## Claim theorems: ranking and tool-state validation -/

/-- C3: getResults returns exactly the tasks with a non-null score, the
returned list is sorted by the descending-score / earliest-time /
lexicographic-provider order, and the result is deterministic: equal
inputs always yield the identical list. -/
theorem getResults_claim (tasks : List CallTask) :
    (∀ t, t ∈ getResults tasks ↔ (t ∈ tasks ∧ t.score ≠ none))
    ∧ (getResults tasks).Sorted offerLE
    ∧ (∀ tasks2, tasks = tasks2 → getResults tasks = getResults tasks2) := by
  refine ⟨?_, ?_, ?_⟩
  · intro t
    unfold getResults
    rw [List.mem_insertionSort, List.mem_filter]
    simp [Option.isSome_iff_ne_none]
  · exact List.sorted_insertionSort offerLE _
  · intro tasks2 h
    rw [h]

/-- C3 witness: three tasks, one unscored — the unscored one is excluded,
the scored ones come back highest score first, the order is sorted, and a
rerun on the same input is identical. -/
theorem getResults_claim_witness :
    getResults [demoOfferC, demoOfferB, demoOfferA] =
      [demoOfferA, demoOfferB]
    ∧ (demoOfferC ∈ getResults [demoOfferC, demoOfferB, demoOfferA] ↔
        (demoOfferC ∈ [demoOfferC, demoOfferB, demoOfferA] ∧
          demoOfferC.score ≠ none))
    ∧ getResults [demoOfferC, demoOfferB, demoOfferA] =
        getResults [demoOfferC, demoOfferB, demoOfferA] := by
  have h := getResults_claim [demoOfferC, demoOfferB, demoOfferA]
  exact ⟨by decide, h.1 demoOfferC,
    h.2.2 [demoOfferC, demoOfferB, demoOfferA] rfl⟩

/-- C8: a tool invocation that is invalid for the task's current state —
such as reportSlotOffer on a task for which no checkAvailability has yet
succeeded — returns InvalidState (it is not accepted as an ok no-op) and
leaves the task's recorded offer, score and status untouched. -/
theorem reportSlotOffer_invalid_claim (t : SupTask) (d : OfferDetails)
    (sc : ℚ) (h : t.status ≠ .negotiating) :
    reportSlotOffer t d sc = .error .invalidState
    ∧ applyReport t d sc = (t, some .invalidState)
    ∧ (applyReport t d sc).1.offered = t.offered
    ∧ (applyReport t d sc).1.score = t.score
    ∧ (applyReport t d sc).1.status = t.status := by
  have herr : reportSlotOffer t d sc = .error .invalidState := by
    unfold reportSlotOffer
    rw [if_neg h]
  have happ : applyReport t d sc = (t, some .invalidState) := by
    unfold applyReport
    rw [herr]
  exact ⟨herr, happ, by rw [happ], by rw [happ], by rw [happ]⟩

/-- C8 witness: reportSlotOffer against a PENDING task — before any
checkAvailability succeeded — is rejected with InvalidState and the task is
unchanged. -/
theorem reportSlotOffer_invalid_claim_witness :
    reportSlotOffer demoPendingSup demoDetails 50 = .error .invalidState
    ∧ applyReport demoPendingSup demoDetails 50 =
        (demoPendingSup, some .invalidState) := by
  have h := reportSlotOffer_invalid_claim demoPendingSup demoDetails 50
    (by decide)
  exact ⟨h.1, h.2.1⟩

/-! ## Claim theorems: exactly-once confirmation -/

/-- The campaign invariant of spec §3: the winning reference is non-null
only in CONFIRMED, and an Appointment record exists exactly for a
CONFIRMED campaign. -/
def CampaignInv (s : CampaignState) : Prop :=
  (s.confirmed_call_task_id ≠ none → s.status = .confirmed)
  ∧ s.appointments = (if s.status = .confirmed then 1 else 0)

/-- A fresh campaign satisfies the invariant. -/
lemma inv_init : CampaignInv initCampaign := by
  constructor
  · intro h
    exact absurd rfl h
  · rfl

/-- Terminal campaign states are immutable: no event changes them. -/
lemma terminal_immutable (s : CampaignState) (e : Event)
    (h : isTerminal s.status = true) : applyEvent s e = s := by
  have h1 : s.status ≠ .created := by
    intro hh; rw [hh] at h; exact absurd h (by decide)
  have h2 : s.status ≠ .provider_lookup := by
    intro hh; rw [hh] at h; exact absurd h (by decide)
  have h3 : s.status ≠ .dialing := by
    intro hh; rw [hh] at h; exact absurd h (by decide)
  have h4 : s.status ≠ .negotiating := by
    intro hh; rw [hh] at h; exact absurd h (by decide)
  have h5 : s.status ≠ .ranking := by
    intro hh; rw [hh] at h; exact absurd h (by decide)
  cases e with
  | beginLookup => simp [applyEvent, h1]
  | providersFound spawned => simp [applyEvent, h2]
  | firstActive => simp [applyEvent, h3]
  | beginRanking => simp [applyEvent, h4]
  | reportOffer tid sc offTime => simp [applyEvent, h]
  | confirmEv tid calendarOk =>
    have hc : confirm s tid calendarOk = .error .invalidState := by
      unfold confirm
      rw [if_neg]
      rintro (hr | hn)
      · exact h5 hr
      · exact h4 hn
    simp [applyEvent, hc]
  | cancelEv => simp [applyEvent, cancelEffect, h]
  | failEv => simp [applyEvent, h]

/-- Every coordinator event preserves the campaign invariant. -/
lemma inv_step (s : CampaignState) (e : Event) (hinv : CampaignInv s) :
    CampaignInv (applyEvent s e) := by
  obtain ⟨hid, happ⟩ := hinv
  by_cases hterm : isTerminal s.status = true
  · rw [terminal_immutable s e hterm]
    exact ⟨hid, happ⟩
  · have hnc : s.status ≠ .confirmed := by
      intro hh; rw [hh] at hterm; exact hterm (by decide)
    have hidn : s.confirmed_call_task_id = none := by
      by_contra hc
      exact hnc (hid hc)
    rw [if_neg hnc] at happ
    cases e with
    | beginLookup =>
      simp only [applyEvent]
      split_ifs <;> exact ⟨by simp [hidn], by simp [happ, hnc]⟩
    | providersFound spawned =>
      simp only [applyEvent]
      split_ifs <;> exact ⟨by simp [hidn], by simp [happ, hnc]⟩
    | firstActive =>
      simp only [applyEvent]
      split_ifs <;> exact ⟨by simp [hidn], by simp [happ, hnc]⟩
    | beginRanking =>
      simp only [applyEvent]
      split_ifs <;> exact ⟨by simp [hidn], by simp [happ, hnc]⟩
    | reportOffer tid sc offTime =>
      simp only [applyEvent]
      split_ifs <;> exact ⟨by simp [hidn], by simp [happ, hnc]⟩
    | confirmEv tid calendarOk =>
      simp only [applyEvent]
      cases hc : confirm s tid calendarOk with
      | error e2 => exact ⟨hid, by simp [happ, hnc]⟩
      | ok s2 =>
        unfold confirm at hc
        split_ifs at hc with hst hoff hcal
        injection hc with hc2
        subst hc2
        exact ⟨fun _ => rfl, by simp [happ]⟩
    | cancelEv =>
      simp only [applyEvent, cancelEffect]
      split_ifs <;> exact ⟨by simp [hidn], by simp [happ, hnc]⟩
    | failEv =>
      simp only [applyEvent]
      split_ifs <;> exact ⟨by simp [hidn], by simp [happ, hnc]⟩

/-- C1: on every reachable campaign state the winning reference is
non-null only when the status is CONFIRMED and the Appointment count
matches (0 before, 1 after confirmation); a successful confirm commits
exactly one winner and one Appointment, any further confirm — in
particular a second rapid confirm for a different task — fails with
InvalidState, and no event mutates a terminal campaign. -/
theorem confirm_exactly_once_claim (s : CampaignState) (hs : Reachable s) :
    (s.confirmed_call_task_id ≠ none → s.status = .confirmed)
    ∧ s.appointments = (if s.status = .confirmed then 1 else 0)
    ∧ (∀ t1 cal1 s1, confirm s t1 cal1 = .ok s1 →
        s1.status = .confirmed
        ∧ s1.confirmed_call_task_id = some t1
        ∧ s1.appointments = 1
        ∧ (∀ t2 cal2, confirm s1 t2 cal2 = Except.error .invalidState))
    ∧ (∀ e, isTerminal s.status = true → applyEvent s e = s) := by
  have hinv : CampaignInv s := by
    induction hs with
    | init => exact inv_init
    | step e hr ih => exact inv_step _ e ih
  obtain ⟨hid, happ⟩ := hinv
  refine ⟨hid, happ, ?_, fun e he => terminal_immutable s e he⟩
  intro t1 cal1 s1 hok
  unfold confirm at hok
  split_ifs at hok with hst hoff hcal
  injection hok with hok2
  subst hok2
  refine ⟨rfl, rfl, ?_, ?_⟩
  · have hnc : s.status ≠ .confirmed := by
      rcases hst with h | h <;> rw [h] <;> decide
    rw [if_neg hnc] at happ
    simp [happ]
  · intro t2 cal2
    unfold confirm
    rw [if_neg]
    rintro (h | h) <;> cases h

/-- C1 witness: a campaign driven by its own events into RANKING with one
scored task; confirming task t1 succeeds and yields exactly one
Appointment, and a second immediate confirm for t2 fails with
InvalidState. -/
theorem confirm_exactly_once_claim_witness :
    confirm demoRanking "t1" true = Except.ok demoConfirmResult
    ∧ confirm demoConfirmResult "t2" true = Except.error .invalidState
    ∧ demoConfirmResult.appointments = 1 := by
  have hr : Reachable demoRanking :=
    Reachable.step .beginRanking
      (Reachable.step (.reportOffer "t1" 50 100)
        (Reachable.step .firstActive
          (Reachable.step (.providersFound [demoSpawnTask])
            (Reachable.step .beginLookup Reachable.init))))
  have h := confirm_exactly_once_claim demoRanking hr
  have hok : confirm demoRanking "t1" true = Except.ok demoConfirmResult := by
    rfl
  obtain ⟨-, -, hap, hsecond⟩ := h.2.2.1 "t1" true demoConfirmResult hok
  exact ⟨hok, hsecond "t2" true, hap⟩

end Nexus
